import Mathlib

/-!
Verification development for the roo-modes sync system.

Shallow embedding of the Python sources:
  - scripts/roo_modes_sync/core/validation.py  (ModeValidator)
  - scripts/roo_modes_sync/core/backup.py      (BackupManager, local .roomodes class)
  - scripts/roo_modes_sync/core/discovery.py   (ModeDiscovery)
  - scripts/roo_modes_sync/core/sync.py        (ModeSync)
  - scripts/sync.py                            (OrderingStrategy family)

YAML values are modelled by `PyVal` (floats and datetimes omitted: no mode
document logic touches them).  Machine strings are Lean `String`s compared by
code point, matching CPython `str` comparison.  File systems are modelled as
association lists from names to contents.
-/

namespace RooModes

/-- Single-quote character as a string, used when assembling Python error
message texts. -/
def sq : String := "\x27"

/-! ### Python string ordering (code-point lexicographic, as CPython `<` on `str`) -/

/-- Lexicographic less-or-equal on char lists by code point; this is exactly
how CPython compares `str` values (and hence how `list.sort` orders them). -/
def lexLeB : List Char → List Char → Bool
  | [], _ => true
  | _ :: _, [] => false
  | a :: as, b :: bs =>
    if a.toNat < b.toNat then true
    else if b.toNat < a.toNat then false
    else lexLeB as bs

/-- Python `<=` on strings. -/
def pyStrLe (s t : String) : Prop := lexLeB s.data t.data = true

instance : DecidableRel pyStrLe := fun s t => by unfold pyStrLe; infer_instance

instance : IsTotal String pyStrLe :=
  ⟨fun s t => by
    show lexLeB s.data t.data = true ∨ lexLeB t.data s.data = true
    generalize s.data = a; generalize t.data = b
    induction a generalizing b with
    | nil => left; rfl
    | cons x xs ih =>
      cases b with
      | nil => right; rfl
      | cons y ys =>
        by_cases h1 : x.toNat < y.toNat
        · left; simp [lexLeB, h1]
        · by_cases h2 : y.toNat < x.toNat
          · right; simp [lexLeB, h2]
          · rcases ih ys with h | h
            · left; simp [lexLeB, h1, h2, h]
            · right; simp [lexLeB, h1, h2, h]⟩

instance : IsTrans String pyStrLe :=
  ⟨fun s t u h1 h2 => by
    show lexLeB s.data u.data = true
    rw [pyStrLe] at h1 h2
    generalize hs : s.data = a at *; generalize ht : t.data = b at *
    generalize hu : u.data = c at *
    clear hs ht hu
    induction a generalizing b c with
    | nil => rfl
    | cons x xs ih =>
      cases b with
      | nil => simp [lexLeB] at h1
      | cons y ys =>
        cases c with
        | nil => simp [lexLeB] at h2
        | cons z zs =>
          simp only [lexLeB] at h1 h2 ⊢
          by_cases hxy : x.toNat < y.toNat
          · by_cases hyz : y.toNat < z.toNat
            · simp [show x.toNat < z.toNat by omega]
            · by_cases hzy : z.toNat < y.toNat
              · simp [hyz, hzy] at h2
              · simp [show x.toNat < z.toNat by omega]
          · by_cases hyx : y.toNat < x.toNat
            · simp [hxy, hyx] at h1
            · by_cases hyz : y.toNat < z.toNat
              · simp [show x.toNat < z.toNat by omega]
              · by_cases hzy : z.toNat < y.toNat
                · simp [hyz, hzy] at h2
                · have hxz1 : ¬ x.toNat < z.toNat := by omega
                  have hxz2 : ¬ z.toNat < x.toNat := by omega
                  simp only [if_neg hxy, if_neg hyx] at h1
                  simp only [if_neg hyz, if_neg hzy] at h2
                  simp only [if_neg hxz1, if_neg hxz2]
                  exact ih ys h1 zs h2⟩

instance : IsAntisymm String pyStrLe :=
  ⟨fun s t h1 h2 => by
    rw [pyStrLe] at h1 h2
    cases s with | mk a => cases t with | mk b =>
    simp only at h1 h2
    refine congrArg String.mk ?_
    induction a generalizing b with
    | nil =>
      cases b with
      | nil => rfl
      | cons y ys => simp [lexLeB] at h2
    | cons x xs ih =>
      cases b with
      | nil => simp [lexLeB] at h1
      | cons y ys =>
        simp only [lexLeB] at h1 h2
        by_cases hxy : x.toNat < y.toNat
        · simp [show ¬ y.toNat < x.toNat by omega, hxy] at h2
        · by_cases hyx : y.toNat < x.toNat
          · simp [hxy, hyx] at h1
          · have hn : x.toNat = y.toNat := by omega
            have hx : x = y := Char.eq_of_val_eq (UInt32.toNat.inj hn)
            subst hx
            simp only [if_neg hxy, if_neg hyx] at h1 h2
            rw [ih ys h1 h2]⟩

/-- Python `list.sort()` / `sorted()` on strings: the (unique) permutation of
the input that is sorted by code-point order. -/
def pySort (l : List String) : List String := List.insertionSort pyStrLe l

/-! ### Substring search (Python `in` on strings) -/

/-- Whether `p` occurs as a contiguous run inside `s` (Python `p in s`). -/
def hasSubstr (p : List Char) : List Char → Bool
  | [] => p.isEmpty
  | c :: rest => p.isPrefixOf (c :: rest) || hasSubstr p rest

/-- Python substring test `phrase in s`. -/
def containsSubstr (s phrase : String) : Bool := hasSubstr phrase.data s.data

/-! ### Decimal rendering of naturals (Python `str(n)` for `n ≥ 0`) -/

/-- Digit character for a value `< 10`. -/
def digitCh (d : Nat) : Char := Char.ofNat (48 + d)

/-- Digit-list builder with structural fuel (any fuel above the value
suffices, see `natDigitsAux_fuel` below). -/
def natDigitsAux : Nat → Nat → List Char
  | 0, _ => []
  | fuel + 1, n =>
    if n < 10 then [digitCh n]
    else natDigitsAux fuel (n / 10) ++ [digitCh (n % 10)]

/-- Decimal digit list of `n`, most significant first (no leading zeros,
`[0]` renders as `"0"`). -/
def natDigits (n : Nat) : List Char := natDigitsAux (n + 1) n

/-- Python `str(n)` for a natural number. -/
def natStr (n : Nat) : String := ⟨natDigits n⟩

/-- Longest digit prefix of a char list, together with the remainder. -/
def leadingDigits : List Char → (List Char × List Char)
  | [] => ([], [])
  | c :: rest =>
    if 48 ≤ c.toNat ∧ c.toNat ≤ 57 then
      let (ds, tl) := leadingDigits rest
      (c :: ds, tl)
    else ([], c :: rest)

/-- Numeric value of a digit list (most significant first). -/
def digitsToNat (ds : List Char) : Nat := ds.foldl (fun acc c => acc * 10 + (c.toNat - 48)) 0

/-! ### YAML / Python value model

`yaml.safe_load` on mode files yields (for the value space this system ever
inspects) `None`, `bool`, `int`, `str`, `list` or `dict` values; floats and
datetimes are omitted from the model because no mode-document logic consumes
them.  Dicts are modelled as association lists in insertion order, which is
also CPython's dict iteration order. -/

inductive PyVal where
  | vnone : PyVal
  | vbool : Bool → PyVal
  | vint : Int → PyVal
  | vstr : String → PyVal
  | vlist : List PyVal → PyVal
  | vdict : List (String × PyVal) → PyVal

instance : Inhabited PyVal := ⟨.vnone⟩

/-- Python `type(v).__name__`. -/
def pyTypeName : PyVal → String
  | .vnone => "NoneType"
  | .vbool _ => "bool"
  | .vint _ => "int"
  | .vstr _ => "str"
  | .vlist _ => "list"
  | .vdict _ => "dict"

/-- Python `str(n)` for an integer. -/
def intStr (n : Int) : String :=
  if n < 0 then "-" ++ natStr n.natAbs else natStr n.natAbs

mutual

/-- Python `repr(v)` (string escaping inside `repr` of a `str` is simplified
to plain single quotes; no claim inspects that corner). -/
def pyRepr : PyVal → String
  | .vnone => "None"
  | .vbool true => "True"
  | .vbool false => "False"
  | .vint n => intStr n
  | .vstr s => sq ++ s ++ sq
  | .vlist items => "[" ++ joinCommaSp (pyReprList items) ++ "]"
  | .vdict entries => "\x7b" ++ joinCommaSp (pyReprEntries entries) ++ "\x7d"

/-- `repr` of each element of a Python list. -/
def pyReprList : List PyVal → List String
  | [] => []
  | v :: rest => pyRepr v :: pyReprList rest

/-- `repr` of each `key: value` entry of a Python dict. -/
def pyReprEntries : List (String × PyVal) → List String
  | [] => []
  | (k, v) :: rest => (sq ++ k ++ sq ++ ": " ++ pyRepr v) :: pyReprEntries rest

/-- Python `", ".join(parts)`. -/
def joinCommaSp : List String → String
  | [] => ""
  | [s] => s
  | s :: rest => s ++ ", " ++ joinCommaSp rest

end

/-- Python `str(v)` (identity on `str`, `repr`-based elsewhere). -/
def pyStr : PyVal → String
  | .vstr s => s
  | v => pyRepr v

/-- Python `==` between a value and a string literal: only equal `str`
values compare equal (no other built-in type equals a `str`). -/
def pyEqStr (v : PyVal) (s : String) : Bool :=
  match v with
  | .vstr t => t == s
  | _ => false

/-- A mode configuration as loaded from YAML: a Python dict. -/
abbrev Config := List (String × PyVal)

/-- Python `config.get(field)` / `config[field]` on a dict (first binding). -/
def configGet (config : Config) (field : String) : Option PyVal :=
  match config with
  | [] => none
  | (k, v) :: rest => if k = field then some v else configGet rest field

/-- Python `field in config` for a dict. -/
def configHasKey (config : Config) (field : String) : Bool :=
  match config with
  | [] => false
  | (k, _) :: rest => k = field || configHasKey rest field

/-- Python `", ".join(fields)` (same as `joinCommaSp`; kept for messages). -/
def joinComma (l : List String) : String := joinCommaSp l

/-- Python `"\n".join(errors)`. -/
def joinNewline : List String → String
  | [] => ""
  | [s] => s
  | s :: rest => s ++ "\n" ++ joinNewline rest

/-! ### Validator (core/validation.py, class ModeValidator) -/

/-- Validation strictness levels (`ValidationLevel`). -/
inductive ValidationLevel where
  | permissive
  | normal
  | strict
deriving DecidableEq

/-- A collected warning: `level` tag (`info`/`warning`/`error`) and message
(`ValidationResult.add_warning`). -/
abbrev Warning := String × String

/-- Result object of a warning-collecting validation run
(`ValidationResult`). -/
structure ValidationResultM where
  valid : Bool
  warnings : List Warning

/-- Outcome of `validate_mode_config`: returned `True`, returned a
`ValidationResult`, or raised `ModeValidationError` with a message. -/
inductive VOutcome where
  | retTrue : VOutcome
  | retResult : ValidationResultM → VOutcome
  | raiseError : String → VOutcome

/-- Whether the outcome counts as a pass: returning `True`, or returning a
result object with `valid` set. -/
def VOutcome.passed : VOutcome → Bool
  | .retTrue => true
  | .retResult r => r.valid
  | .raiseError _ => false

/-- `ModeValidator.REQUIRED_FIELDS`. -/
def REQUIRED_FIELDS : List String := ["slug", "name", "roleDefinition", "groups"]

/-- `ModeValidator.OPTIONAL_FIELDS`. -/
def OPTIONAL_FIELDS : List String := ["whenToUse", "customInstructions"]

/-- `ModeValidator.VALID_TOP_LEVEL_FIELDS`. -/
def VALID_TOP_LEVEL_FIELDS : List String := REQUIRED_FIELDS ++ OPTIONAL_FIELDS

/-- `ModeValidator.VALID_SIMPLE_GROUPS`. -/
def VALID_SIMPLE_GROUPS : List String := ["read", "edit", "browser"]

/-- Extended-schema fragment for one property: optional expected `type`
string and optional `required` sub-key list
(`ModeValidator._validate_against_extended_schema`). -/
structure ExtPropSchema where
  typeName : Option String
  requiredKeys : Option (List String)

/-- An extended schema: an optional `properties` table. -/
structure ExtSchema where
  properties : Option (List (String × ExtPropSchema))

/-- Validator state: strictness level, registered extended schemas, and an
oracle telling which pattern strings `re.compile` accepts (regex-syntax
validity of `fileRegex` strings is not re-implemented; every theorem below
holds for every oracle). -/
structure ValidatorState where
  validationLevel : ValidationLevel
  extendedSchemas : List (String × ExtSchema)
  regexValid : String → Bool

/-- Whether `c` is in `[a-z0-9]`. -/
def isSlugChar (c : Char) : Bool :=
  (97 ≤ c.toNat && c.toNat ≤ 122) || (48 ≤ c.toNat && c.toNat ≤ 57)

mutual

/-- Matcher for `[a-z0-9]+(-[a-z0-9]+)*` against a whole char list:
state expecting at least one more `[a-z0-9]` character. -/
def slugHead : List Char → Bool
  | [] => false
  | c :: rest => isSlugChar c && slugTail rest

/-- Matcher state after at least one `[a-z0-9]` of the current run. -/
def slugTail : List Char → Bool
  | [] => true
  | c :: rest => if c = '-' then slugHead rest else isSlugChar c && slugTail rest

end

/-- Python `re.match(r"^[a-z0-9]+(-[a-z0-9]+)*$", s)` as a Boolean: a full
match, where `$` also matches just before a single trailing newline. -/
def slugPatternMatch (s : String) : Bool :=
  slugHead s.data ||
    (match s.data.getLast? with
     | some c => c = '\n' && slugHead s.data.dropLast
     | none => false)

/-- `ModeValidator._validate_string_field`: the field must be present, a
string, and non-empty; the error message carries the Python type name. -/
def validateStringField (config : Config) (field : String) (filename : String) :
    Except String Unit :=
  match configGet config field with
  | some (.vstr s) =>
    if s = "" then
      .error ("Field " ++ sq ++ field ++ sq ++ " in " ++ filename ++ " cannot be empty")
    else .ok ()
  | some v =>
    .error ("Field " ++ sq ++ field ++ sq ++ " in " ++ filename ++ " must be a string, got "
      ++ pyTypeName v)
  | none =>
    .error ("Field " ++ sq ++ field ++ sq ++ " in " ++ filename ++ " must be a string, got "
      ++ "NoneType")

/-- `ModeValidator._validate_simple_group`. -/
def validateSimpleGroup (groupName : String) (filename : String) : Except String Unit :=
  if groupName ∈ VALID_SIMPLE_GROUPS then .ok ()
  else
    .error ("Invalid group name in " ++ filename ++ ": " ++ sq ++ groupName ++ sq ++ ". "
      ++ "Valid simple groups are: " ++ joinComma VALID_SIMPLE_GROUPS)

/-- `ModeValidator._validate_complex_group`. -/
def validateComplexGroup (v : ValidatorState) (complexGroup : List PyVal)
    (filename : String) : Except String Unit :=
  if complexGroup.length ≠ 2 then
    .error ("Complex group in " ++ filename ++ " must have exactly 2 items, got "
      ++ natStr complexGroup.length)
  else
    let first := complexGroup.headI
    if ¬ pyEqStr first "edit" then
      .error ("First item in complex group must be " ++ sq ++ "edit" ++ sq ++ ", got "
        ++ sq ++ pyStr first ++ sq)
    else
      match complexGroup.getLast? with
      | some (.vdict configObj) =>
        if ¬ configHasKey configObj "fileRegex" then
          .error ("Complex group config must have " ++ sq ++ "fileRegex" ++ sq
            ++ " property in " ++ filename)
        else
          match configGet configObj "fileRegex" with
          | some (.vstr fileRegex) =>
            if ¬ v.regexValid fileRegex then
              .error ("Invalid regex pattern " ++ sq ++ fileRegex ++ sq ++ " in " ++ filename)
            else
              let unexpectedProps :=
                (configObj.map Prod.fst).filter (fun p => p ∉ ["fileRegex", "description"])
              if ¬ unexpectedProps.isEmpty ∧ v.validationLevel = .strict then
                .error ("Unexpected properties in complex group config in " ++ filename
                  ++ ": " ++ joinComma unexpectedProps)
              else .ok ()
          | some w =>
            .error (sq ++ "fileRegex" ++ sq ++ " must be a string in " ++ filename
              ++ ", got " ++ pyTypeName w)
          | none =>
            .error (sq ++ "fileRegex" ++ sq ++ " must be a string in " ++ filename
              ++ ", got " ++ "NoneType")
      | some w =>
        .error ("Second item in complex group must be an object, got " ++ pyTypeName w)
      | none =>
        .error ("Second item in complex group must be an object, got " ++ "NoneType")

/-- One step of the `for group_item in groups` loop of
`ModeValidator._validate_groups`. -/
def validateGroupItem (v : ValidatorState) (item : PyVal) (filename : String) :
    Except String Unit :=
  match item with
  | .vstr s => validateSimpleGroup s filename
  | .vlist items => validateComplexGroup v items filename
  | other =>
    .error ("Invalid group item in " ++ filename ++ ": " ++ pyStr other ++ ". "
      ++ "Must be a string or array.")

/-- The item loop: the first failing item raises. -/
def validateGroupItems (v : ValidatorState) (items : List PyVal) (filename : String) :
    Except String Unit :=
  match items with
  | [] => .ok ()
  | item :: rest =>
    match validateGroupItem v item filename with
    | .error e => .error e
    | .ok _ => validateGroupItems v rest filename

/-- `ModeValidator._validate_groups`: a non-empty list whose items all
validate. -/
def validateGroups (v : ValidatorState) (groups : List PyVal) (filename : String) :
    Except String Unit :=
  if groups.isEmpty then
    .error ("Groups array in " ++ filename ++ " cannot be empty")
  else validateGroupItems v groups filename

/-- `ModeValidator._validate_against_extended_schema` for one property. -/
def validateExtProp (config : Config) (propName : String) (propSchema : ExtPropSchema)
    (filename : String) : Except String Unit :=
  match configGet config propName with
  | none => .ok ()
  | some value =>
    let typeCheck : Except String Unit :=
      match propSchema.typeName with
      | some "object" =>
        match value with
        | .vdict _ => .ok ()
        | _ => .error ("Property " ++ sq ++ propName ++ sq ++ " in " ++ filename
            ++ " must be an object")
      | some "array" =>
        match value with
        | .vlist _ => .ok ()
        | _ => .error ("Property " ++ sq ++ propName ++ sq ++ " in " ++ filename
            ++ " must be an array")
      | some "string" =>
        match value with
        | .vstr _ => .ok ()
        | _ => .error ("Property " ++ sq ++ propName ++ sq ++ " in " ++ filename
            ++ " must be a string")
      | _ => .ok ()
    match typeCheck with
    | .error e => .error e
    | .ok _ =>
      match value, propSchema.requiredKeys with
      | .vdict obj, some required =>
        let missing := required.filter (fun f => ¬ configHasKey obj f)
        if ¬ missing.isEmpty then
          .error ("Missing required fields in " ++ sq ++ propName ++ sq ++ " in "
            ++ filename ++ ": " ++ joinComma missing)
        else .ok ()
      | _, _ => .ok ()

/-- Property loop of `_validate_against_extended_schema`. -/
def validateExtProps (config : Config) (props : List (String × ExtPropSchema))
    (filename : String) : Except String Unit :=
  match props with
  | [] => .ok ()
  | (n, p) :: rest =>
    match validateExtProp config n p filename with
    | .error e => .error e
    | .ok _ => validateExtProps config rest filename

/-- `ModeValidator._validate_against_extended_schema`. -/
def validateAgainstExtendedSchema (config : Config) (schema : ExtSchema)
    (filename : String) : Except String Unit :=
  match schema.properties with
  | none => .ok ()
  | some props => validateExtProps config props filename

/-- Error message of a failed check, if any. -/
def errOpt : Except String Unit → Option String
  | .error e => some e
  | .ok _ => none

/-- Lookup of a registered extended schema by name. -/
def configLookupSchema (schemas : List (String × ExtSchema)) (name : String) :
    Option ExtSchema :=
  match schemas with
  | [] => none
  | (k, v) :: rest => if k = name then some v else configLookupSchema rest name

/-- Final phase of `validate_mode_config`: apply extended schemas, then
either raise the concatenated `validation_errors`, or return the collected
result / `True`. -/
def vmcFinish (v : ValidatorState) (config : Config) (filename : String)
    (collectWarnings : Bool) (extensions : List String)
    (warnings : List Warning) (errors : List String) (validFlag : Bool) : VOutcome :=
  let extErrors := extensions.filterMap (fun ext =>
    match configLookupSchema v.extendedSchemas ext with
    | some schema => errOpt (validateAgainstExtendedSchema config schema filename)
    | none => none)
  let allErrors := errors ++ extErrors
  if allErrors.isEmpty then
    (if collectWarnings then .retResult ⟨validFlag, warnings⟩ else .retTrue)
  else
    if collectWarnings then
      .retResult ⟨false, warnings ++ allErrors.map (fun e => ("error", e))⟩
    else .raiseError (joinNewline allErrors)

/-- Errors raised and re-collected by the `for field in ['slug', 'name',
'roleDefinition']` loop of `validate_mode_config`. -/
def stringFieldErrors (config : Config) (filename : String) : List String :=
  ["slug", "name", "roleDefinition"].filterMap
    (fun f => errOpt (validateStringField config f filename))

/-- Errors collected by the optional-field loop of `validate_mode_config`. -/
def optionalFieldErrors (config : Config) (filename : String) : List String :=
  OPTIONAL_FIELDS.filterMap
    (fun f =>
      if configHasKey config f then errOpt (validateStringField config f filename)
      else none)

/-- Slug-format section of `validate_mode_config`: a mismatch is a warning
at PERMISSIVE, an error otherwise. -/
def vmcSlugStep (v : ValidatorState) (config : Config) (filename : String)
    (warnings : List Warning) (errors : List String) : List Warning × List String :=
  match configGet config "slug" with
  | some (.vstr s) =>
    if ¬ slugPatternMatch s then
      let msg := "Invalid slug format in " ++ filename ++ ": " ++ s ++ ". "
        ++ "Slugs must be lowercase alphanumeric with hyphens."
      if v.validationLevel = .permissive then (warnings ++ [("warning", msg)], errors)
      else (warnings, errors ++ [msg])
    else (warnings, errors)
  | _ => (warnings, errors)

/-- Groups section of `validate_mode_config` followed by `vmcFinish`: a
non-list raises or is collected, a list error is downgraded only at
PERMISSIVE and only when the message is not the empty-groups one. -/
def vmcGroupsStep (v : ValidatorState) (config : Config) (filename : String)
    (collectWarnings : Bool) (extensions : List String)
    (warnings : List Warning) (errors : List String) : VOutcome :=
  match configGet config "groups" with
  | some (.vlist groups) =>
    (match validateGroups v groups filename with
     | .error e =>
       if v.validationLevel = .permissive ∧ ¬ containsSubstr e "cannot be empty" then
         vmcFinish v config filename collectWarnings extensions
           (warnings ++ [("warning", e)]) errors true
       else
         vmcFinish v config filename collectWarnings extensions warnings (errors ++ [e]) true
     | .ok _ => vmcFinish v config filename collectWarnings extensions warnings errors true)
  | some _ =>
    let msg := "Field " ++ sq ++ "groups" ++ sq ++ " in " ++ filename ++ " must be an array"
    if collectWarnings then
      vmcFinish v config filename collectWarnings extensions
        (warnings ++ [("error", msg)]) errors false
    else .raiseError msg
  | none => vmcFinish v config filename collectWarnings extensions warnings errors true

/-- Body of `validate_mode_config` after the required-fields short-circuit:
unexpected top-level properties, string fields, slug format, groups, then
`vmcFinish`. -/
def vmcAfterRequired (v : ValidatorState) (config : Config) (filename : String)
    (collectWarnings : Bool) (extensions : List String) : VOutcome :=
  let unexpected := (config.map Prod.fst).filter (fun f => f ∉ VALID_TOP_LEVEL_FIELDS)
  let unexpectedMsg := "Unexpected properties in " ++ filename ++ ": " ++ joinComma unexpected
  let we0 : List Warning × List String :=
    if unexpected.isEmpty then ([], [])
    else if v.validationLevel = .strict then ([], [unexpectedMsg])
    else ([("warning", unexpectedMsg)], [])
  let errors1 := we0.2 ++ stringFieldErrors config filename
  let errors2 := errors1 ++ optionalFieldErrors config filename
  let we1 := vmcSlugStep v config filename we0.1 errors2
  vmcGroupsStep v config filename collectWarnings extensions we1.1 we1.2

/-- `ModeValidator.validate_mode_config`. -/
def validateModeConfig (v : ValidatorState) (config : Config) (filename : String)
    (collectWarnings : Bool) (extensions : List String) : VOutcome :=
  let missing := REQUIRED_FIELDS.filter (fun f => ¬ configHasKey config f)
  if missing.isEmpty then
    vmcAfterRequired v config filename collectWarnings extensions
  else
    let errorMsg := "Missing required fields in " ++ filename ++ ": " ++ joinComma missing
    if collectWarnings then .retResult ⟨false, [("error", errorMsg)]⟩
    else .raiseError errorMsg

/-- A fresh `ModeValidator()` (level `NORMAL`, no extended schemas), with the
given `re.compile`-success oracle. -/
def defaultValidator (rv : String → Bool) : ValidatorState := ⟨.normal, [], rv⟩

/-! ### Ordering strategies (scripts/sync.py, OrderingStrategy family) -/

/-- Categorized modes: a Python dict mapping a category name to its slug
list, in insertion order. -/
abbrev Categorized := List (String × List String)

/-- Generic dict lookup (first binding). -/
def assocGet {α : Type} (l : List (String × α)) (k : String) : Option α :=
  match l with
  | [] => none
  | (k1, v) :: rest => if k1 = k then some v else assocGet rest k

/-- Generic dict key-membership test. -/
def assocHasKey {α : Type} (l : List (String × α)) (k : String) : Bool :=
  match l with
  | [] => false
  | (k1, _) :: rest => k1 = k || assocHasKey rest k

/-- Options dictionary consumed by the strategies, with the defaults the code
supplies at each `options.get` site. -/
structure OrderingOptions where
  exclude : List String := []
  priorityFirst : List String := []
  categoryOrder : List String := ["core", "enhanced", "specialized", "discovered"]
  withinCategorySort : String := "alphabetical"
  manualCategoryOrder : List (String × List String) := []
  customOrder : List String := []

/-- `categorized_modes.values()` flattened (`all_modes` accumulation). -/
def allModesOf (cm : Categorized) : List String := (cm.map Prod.snd).flatten

/-- `OrderingStrategy._apply_filters`: drop excluded slugs, then hoist the
present `priority_first` slugs to the front. -/
def applyFilters (modeList : List String) (options : OrderingOptions) : List String :=
  let result := modeList
  let result :=
    if options.exclude.isEmpty then result
    else result.filter (fun m => !(options.exclude.contains m))
  if options.priorityFirst.isEmpty then result
  else
    let priorityFound := options.priorityFirst.filter (fun m => result.contains m)
    let nonPriority := result.filter (fun m => !(priorityFound.contains m))
    priorityFound ++ nonPriority

/-- `StrategicOrderingStrategy.strategic_order` (the hardcoded list). -/
def STRATEGIC_ORDER : List String :=
  ["code", "architect", "debug", "ask", "orchestrator", "code-enhanced",
   "prompt-enhancer", "prompt-enhancer-isolated", "conport-maintenance"]

/-- `StrategicOrderingStrategy.order_modes` before the shared post-filters:
known slugs in the hardcoded order, then the rest alphabetically. -/
def rawStrategicOrder (cm : Categorized) : List String :=
  let allModes := allModesOf cm
  let ordered := STRATEGIC_ORDER.filter (fun m => allModes.contains m)
  let remaining := pySort (allModes.filter (fun m => !(ordered.contains m)))
  ordered ++ remaining

/-- `AlphabeticalOrderingStrategy.order_modes` before the post-filters:
fixed category order, each category sorted. -/
def rawAlphabeticalOrder (cm : Categorized) : List String :=
  (["core", "enhanced", "specialized", "discovered"].map (fun category =>
    match assocGet cm category with
    | some categoryModes => pySort categoryModes
    | none => [])).flatten

/-- The `for mode in manual_order` loop of
`CategoryBasedOrderingStrategy.order_modes`: pick listed slugs present in the
category (removing each picked one), return picks and leftovers. -/
def manualPick : List String → List String → (List String × List String)
  | [], avail => ([], avail)
  | m :: ms, avail =>
    if avail.contains m then
      let (picked, rest) := manualPick ms (avail.erase m)
      (m :: picked, rest)
    else manualPick ms avail

/-- `CategoryBasedOrderingStrategy.order_modes` before the post-filters. -/
def rawCategoryOrder (cm : Categorized) (options : OrderingOptions) : List String :=
  (options.categoryOrder.map (fun category =>
    match assocGet cm category with
    | none => []
    | some categoryModes =>
      if options.withinCategorySort = "manual"
          ∧ assocHasKey options.manualCategoryOrder category then
        let manualOrder := (assocGet options.manualCategoryOrder category).getD []
        let (picked, rest) := manualPick manualOrder categoryModes
        picked ++ pySort rest
      else pySort categoryModes)).flatten

/-- `CustomOrderingStrategy.order_modes` before the post-filters. -/
def rawCustomOrder (cm : Categorized) (options : OrderingOptions) : List String :=
  let allModes := allModesOf cm
  let ordered := options.customOrder.filter (fun m => allModes.contains m)
  let remaining := pySort (allModes.filter (fun m => !(ordered.contains m)))
  ordered ++ remaining

/-- The four registered strategies (`OrderingStrategyFactory.strategies`). -/
inductive StrategyKind where
  | strategic
  | alphabetical
  | category
  | custom
deriving DecidableEq

/-- The strategy-specific ordering before the shared post-filters. -/
def rawOrder : StrategyKind → Categorized → OrderingOptions → List String
  | .strategic, cm, _ => rawStrategicOrder cm
  | .alphabetical, cm, _ => rawAlphabeticalOrder cm
  | .category, cm, o => rawCategoryOrder cm o
  | .custom, cm, o => rawCustomOrder cm o

/-- `order_modes` of each strategy: the raw ordering followed by
`_apply_filters`, exactly as every concrete `order_modes` ends with
`return self._apply_filters(ordered_modes, options)`. -/
def orderModes (k : StrategyKind) (cm : Categorized) (o : OrderingOptions) : List String :=
  applyFilters (rawOrder k cm o) o

/-- `OrderingStrategyFactory.create_strategy`: name lookup, unknown names are
a fatal configuration error. -/
def createStrategy (name : String) : Except String StrategyKind :=
  if name = "strategic" then .ok .strategic
  else if name = "alphabetical" then .ok .alphabetical
  else if name = "category" then .ok .category
  else if name = "custom" then .ok .custom
  else .error ("Unknown ordering strategy: " ++ name)

/-! ### BackupManager (core/backup.py), local `.roomodes` file class

The world is the project root's `.roomodes` file plus the
`cache/roo_modes_local_backup` directory, contents as abstract byte lists. -/

/-- File contents as raw bytes. -/
abbrev Content := List Nat

/-- World state for the local-`.roomodes` backup class. -/
structure BackupWorld where
  roomodes : Option Content
  localBackups : List (String × Content)

/-- Number extracted by `re.match(r"\.roomodes_(\d+)", name)`: an unanchored
prefix match, the group being the maximal digit run after `.roomodes_`. -/
def roomodesBackupNum (name : String) : Option Nat :=
  let base := ".roomodes_".data
  if base.isPrefixOf name.data then
    let rest := name.data.drop base.length
    let ds := (leadingDigits rest).1
    if ds.isEmpty then none else some (digitsToNat ds)
  else none

/-- Numeric suffixes of all matching backup files in the directory
(`existing_numbers`). -/
def backupNumbers (dir : List (String × Content)) : List Nat :=
  dir.filterMap (fun e => roomodesBackupNum e.1)

/-- `BackupManager._get_next_backup_number` for the `.roomodes` pattern:
`max(existing_numbers, default=0) + 1`. -/
def getNextBackupNumber (dir : List (String × Content)) : Nat :=
  (backupNumbers dir).foldr max 0 + 1

/-- `BackupManager._get_latest_backup_number`: `max` of the suffixes, `None`
when there are none. -/
def getLatestBackupNumber (dir : List (String × Content)) : Option Nat :=
  if (backupNumbers dir).isEmpty then none else some ((backupNumbers dir).foldr max 0)

/-- `BackupManager._create_backup_filename` for the extensionless
`.roomodes` class. -/
def createBackupFilename (n : Nat) : String := ".roomodes_" ++ natStr n

/-- Write (create or overwrite, as `shutil.copy2` does) a file in a
directory listing. -/
def dirWrite (dir : List (String × Content)) (name : String) (c : Content) :
    List (String × Content) :=
  if dir.any (fun e => e.1 = name) then
    dir.map (fun e => if e.1 = name then (name, c) else e)
  else dir ++ [(name, c)]

/-- Read a file from a directory listing. -/
def dirRead (dir : List (String × Content)) (name : String) : Option Content :=
  assocGet dir name

/-- Delete a file from a directory listing (`Path.unlink`). -/
def dirErase (dir : List (String × Content)) (name : String) : List (String × Content) :=
  dir.filter (fun e => e.1 ≠ name)

/-- `BackupManager.backup_local_roomodes`: fail when the source is absent,
else copy it to `.roomodes_<next>` in the backup directory. -/
def backupLocalRoomodes (w : BackupWorld) : Except String (BackupWorld × String) :=
  match w.roomodes with
  | none => .error "Local .roomodes file not found"
  | some content =>
    let backupNumber := getNextBackupNumber w.localBackups
    let backupFilename := createBackupFilename backupNumber
    .ok ({ w with localBackups := dirWrite w.localBackups backupFilename content },
      backupFilename)

/-- `BackupManager.restore_local_roomodes`: pick the explicit backup or the
latest-numbered one, fail when missing, else copy it over the live target
and delete the backup file. -/
def restoreLocalRoomodes (w : BackupWorld) (backupFilePath : Option String) :
    Except String BackupWorld :=
  let chosen : Except String String :=
    match backupFilePath with
    | some p => .ok p
    | none =>
      match getLatestBackupNumber w.localBackups with
      | none => .error "No local .roomodes backups available"
      | some latest => .ok (createBackupFilename latest)
  match chosen with
  | .error e => .error e
  | .ok name =>
    match dirRead w.localBackups name with
    | none => .error ("Backup file not found: " ++ name)
    | some content =>
      .ok { roomodes := some content, localBackups := dirErase w.localBackups name }

/-! ### Discovery (core/discovery.py, ModeDiscovery) -/

/-- Parse outcome of one `*.yaml` file in the modes directory:
`yaml.safe_load` either raises `YAMLError` or yields a value. -/
inductive FileParse where
  | perr : FileParse
  | pval : PyVal → FileParse

/-- The modes directory: file stems (in `glob` order) with their parse
outcome. -/
abbrev ModeFiles := List (String × FileParse)

/-- Python `key in value`: key lookup on dicts, element equality on lists,
substring on strings; `TypeError` (modelled as `.error ()`) on
non-containers such as `None`, `bool` or `int`. -/
def pyIn (key : String) : PyVal → Except Unit Bool
  | .vdict d => .ok (assocHasKey d key)
  | .vlist l => .ok (l.any (fun v => pyEqStr v key))
  | .vstr t => .ok (containsSubstr t key)
  | _ => .error ()

/-- Python `all(field in config for field in fields)`: short-circuits at the
first `False`; a `TypeError` raised by `in` propagates. -/
def allKeysIn (fields : List String) (v : PyVal) : Except Unit Bool :=
  match fields with
  | [] => .ok true
  | f :: rest =>
    match pyIn f v with
    | .error e => .error e
    | .ok false => .ok false
    | .ok true => allKeysIn rest v

/-- `ModeDiscovery._is_valid_mode_file`: parse failures are caught (`False`);
a parsed value must contain the four required keys.  `TypeError` from `in`
(value is `None`/`bool`/`int`) is not in the caught exception tuple and
propagates. -/
def isValidModeFile : FileParse → Except Unit Bool
  | .perr => .ok false
  | .pval v => allKeysIn REQUIRED_FIELDS v

/-- Python `s.endswith(suffix)`. -/
def strEndsWith (s suffix : String) : Bool := suffix.data.isSuffixOf s.data

/-- `ModeDiscovery.categorize_mode` with the core/discovery.py pattern table
(first matching category wins, `discovered` otherwise).  The regexes are
specialized to newline-free slugs: `^(code|...|docs)$` is membership,
`.*-x$` is a suffix test, `.*-enhancer.*$` is a substring test. -/
def categorizeMode (slug : String) : String :=
  if slug ∈ ["code", "architect", "debug", "ask", "orchestrator", "docs"] then "core"
  else if strEndsWith slug "-enhanced" || strEndsWith slug "-plus" then "enhanced"
  else if strEndsWith slug "-maintenance" || containsSubstr slug "-enhancer"
      || strEndsWith slug "-creator" || strEndsWith slug "-auditor" then "specialized"
  else "discovered"

/-- Accumulator for the four category lists while scanning the directory. -/
structure CatAcc where
  core : List String := []
  enhanced : List String := []
  specialized : List String := []
  discovered : List String := []

/-- `categorized_modes[category].append(mode_slug)`. -/
def catAppend (acc : CatAcc) (category slug : String) : CatAcc :=
  if category = "core" then { acc with core := acc.core ++ [slug] }
  else if category = "enhanced" then { acc with enhanced := acc.enhanced ++ [slug] }
  else if category = "specialized" then { acc with specialized := acc.specialized ++ [slug] }
  else { acc with discovered := acc.discovered ++ [slug] }

/-- The `for yaml_file in yaml_files` loop of `discover_all_modes`. -/
def discoverLoop : ModeFiles → CatAcc → Except Unit CatAcc
  | [], acc => .ok acc
  | (stem, p) :: rest, acc =>
    match isValidModeFile p with
    | .error e => .error e
    | .ok false => discoverLoop rest acc
    | .ok true => discoverLoop rest (catAppend acc (categorizeMode stem) stem)

/-- `ModeDiscovery.discover_all_modes`: the four fixed keys, empty when the
directory is missing, otherwise filled by the scan and each sorted. -/
def discoverAllModes (dirExists : Bool) (files : ModeFiles) : Except Unit Categorized :=
  if ¬ dirExists then
    .ok [("core", []), ("enhanced", []), ("specialized", []), ("discovered", [])]
  else
    match discoverLoop files {} with
    | .error e => .error e
    | .ok acc =>
      .ok [("core", pySort acc.core), ("enhanced", pySort acc.enhanced),
           ("specialized", pySort acc.specialized), ("discovered", pySort acc.discovered)]

/-! ### Sync engine (core/sync.py, ModeSync)

core/sync.py imports `OrderingStrategyFactory` from `.ordering`, a module not
present under src/; per the spec (§4.3) the factory and strategies coincide
with the `scripts/sync.py` implementations embedded above, so those are
reused here (modelled from the spec for the missing module).

Filesystem-effect model: the world is the flags and file contents the engine
touches.  `mkdir` and the backup copy are modelled as always succeeding (the
OS-failure branches return `False`/are ignored and are not modelled). -/

/-- World state of one `ModeSync` run. -/
structure SyncState where
  modesDirExists : Bool
  modeFiles : ModeFiles
  globalSet : Bool
  localSet : Bool
  targetContent : Option String
  backupContent : Option String
  localDirExists : Bool

/-- Result of `sync_modes`: a returned Boolean or a raised `SyncError`. -/
inductive SyncOutcome where
  | returned : Bool → SyncOutcome
  | raised : String → SyncOutcome
deriving DecidableEq

/-- Python `config['source'] = 'global'` (dict assignment). -/
def dictSet (d : Config) (k : String) (v : PyVal) : Config :=
  if configHasKey d k then d.map (fun e => if e.1 = k then (k, v) else e)
  else d ++ [(k, v)]

/-- `ModeSync.load_mode_config`: read `<slug>.yaml`, `safe_load`, validate
with the default (NORMAL, non-collecting) validator, then set
`source: global`.  Every failure — missing file, parse error, validation
error, or any exception a non-dict value provokes inside
`validate_mode_config` — is wrapped into `SyncError`. -/
def loadModeConfig (rv : String → Bool) (files : ModeFiles) (slug : String) :
    Except String Config :=
  match assocGet files slug with
  | none => .error ("Mode file not found: " ++ slug ++ ".yaml")
  | some .perr => .error ("Error parsing YAML for " ++ slug)
  | some (.pval v) =>
    match v with
    | .vdict d =>
      (match validateModeConfig (defaultValidator rv) d (slug ++ ".yaml") false [] with
       | .raiseError e => .error ("Error loading " ++ slug ++ ": " ++ e)
       | _ => .ok (dictSet d "source" (.vstr "global")))
    | _ => .error ("Error loading " ++ slug)

/-- The `for mode_slug in ordered_mode_slugs` loop of
`create_global_config`: failed loads are skipped. -/
def loadLoop (rv : String → Bool) (files : ModeFiles) : List String → List Config
  | [] => []
  | slug :: rest =>
    match loadModeConfig rv files slug with
    | .ok c => c :: loadLoop rv files rest
    | .error _ => loadLoop rv files rest

/-- `ModeSync.create_global_config`: discover, build the strategy, order,
re-apply the exclusion filter, and load each mode in order. -/
def createGlobalConfig (rv : String → Bool) (dirExists : Bool) (files : ModeFiles)
    (strategyName : String) (options : OrderingOptions) : Except String (List Config) :=
  match discoverAllModes dirExists files with
  | .error _ => .error "TypeError raised during discovery"
  | .ok categorized =>
    match createStrategy strategyName with
    | .error e => .error ("Failed to create ordering strategy: " ++ e)
    | .ok strat =>
      let ordered := orderModes strat categorized options
      let ordered :=
        if ¬ options.exclude.isEmpty then
          ordered.filter (fun m => !(options.exclude.contains m))
        else ordered
      .ok (loadLoop rv files ordered)

/-- Python `" " * indent`. -/
def spaces (n : Nat) : String := ⟨List.replicate n ' '⟩

/-- `ModeSync.format_multiline_string` (Python `str.strip()` rendered with
`String.trim`). -/
def formatMultilineString (text : String) (indent : Nat) : String :=
  if containsSubstr text "\n" || text.length > 80 then
    let prefixSp := spaces indent
    let formatted := (text.trim).replace "\n" ("\n" ++ prefixSp)
    ">-\n" ++ prefixSp ++ formatted
  else
    if containsSubstr text ":" || text.startsWith "Activate" || containsSubstr text "\"" then
      "\"" ++ text ++ "\""
    else text

/-- One `- group` line block of `write_config` (entries that are neither a
string nor a two-element list are silently skipped by the code's
`if`/`elif`). -/
def renderGroupLine (g : PyVal) : String :=
  match g with
  | .vstr s => "      - " ++ s ++ "\n"
  | .vlist items =>
    if items.length = 2 then
      let second := (items.getLast?).getD .vnone
      let fileRegex :=
        match second with
        | .vdict o => pyStr ((configGet o "fileRegex").getD .vnone)
        | _ => ""
      let descLine :=
        match second with
        | .vdict o =>
          (match configGet o "description" with
           | some d => "          description: " ++ pyStr d ++ "\n"
           | none => "")
        | _ => ""
      "      - - " ++ pyStr items.headI ++ "\n"
        ++ "        - fileRegex: " ++ fileRegex ++ "\n" ++ descLine
    else ""
  | _ => ""

/-- One mode block of `write_config`. -/
def renderMode (m : Config) : String :=
  let fieldStr := fun (k : String) => pyStr ((configGet m k).getD .vnone)
  let optLine := fun (k : String) =>
    if configHasKey m k then
      "    " ++ k ++ ": " ++ formatMultilineString (fieldStr k) 4 ++ "\n"
    else ""
  let groupLines :=
    match configGet m "groups" with
    | some (.vlist gs) => (gs.map renderGroupLine).foldl (· ++ ·) ""
    | _ => ""
  "  - slug: " ++ fieldStr "slug" ++ "\n"
    ++ "    name: " ++ formatMultilineString (fieldStr "name") 4 ++ "\n"
    ++ "    roleDefinition: " ++ formatMultilineString (fieldStr "roleDefinition") 4 ++ "\n"
    ++ optLine "whenToUse"
    ++ optLine "customInstructions"
    ++ "    groups:\n" ++ groupLines
    ++ "    source: " ++ fieldStr "source" ++ "\n"

/-- The YAML text `write_config` produces. -/
def renderConfig (modes : List Config) : String :=
  "customModes:\n" ++ (modes.map renderMode).foldl (· ++ ·) ""

/-- `create_local_mode_directory` step of `sync_modes` (wet local runs
only). -/
def prepLocalDir (st : SyncState) (dryRun : Bool) : SyncState :=
  if st.localSet ∧ ¬ dryRun then { st with localDirExists := true } else st

/-- `backup_existing_config` step of `sync_modes` (wet runs only): copy a
non-empty existing target aside. -/
def prepBackup (st : SyncState) (dryRun : Bool) : SyncState :=
  if ¬ dryRun then
    match st.targetContent with
    | some c => if c ≠ "" then { st with backupContent := some c } else st
    | none => st
  else st

/-- `ModeSync.sync_modes`: guards, optional local-directory creation and
best-effort backup (skipped on dry runs), mode resolution, then the
empty-check / dry-run gate / write. -/
def syncModes (rv : String → Bool) (st : SyncState) (strategyName : String)
    (options : OrderingOptions) (dryRun : Bool) : SyncState × SyncOutcome :=
  if ¬ st.modesDirExists then (st, .raised "Modes directory not found")
  else if ¬ st.globalSet ∧ ¬ st.localSet then
    (st, .raised "No config path set (neither global nor local)")
  else
    let st2 := prepBackup (prepLocalDir st dryRun) dryRun
    match createGlobalConfig rv st2.modesDirExists st2.modeFiles strategyName options with
    | .error e => (st2, .raised ("Sync failed: " ++ e))
    | .ok modes =>
      if modes.isEmpty then (st2, .returned false)
      else if dryRun then (st2, .returned true)
      else ({ st2 with targetContent := some (renderConfig modes) }, .returned true)

/-- Post-filter pipeline exactly as the spec words it (for the refinement
claim about `_apply_filters`): first remove excluded slugs, then hoist the
`priority_first` slugs that are present to the front in the given order,
the rest keeping the strategy's relative order. -/
def specFilteredOrder (k : StrategyKind) (cm : Categorized) (opts : OrderingOptions) :
    List String :=
  let afterExclude := (rawOrder k cm opts).filter (fun m => !(opts.exclude.contains m))
  let priorityPresent := opts.priorityFirst.filter (fun m => afterExclude.contains m)
  priorityPresent ++ afterExclude.filter (fun m => !(priorityPresent.contains m))

/-- Parse outcomes on which Python `in` cannot raise `TypeError`: parse
errors (skipped) and container or string values. -/
def scalarFreeParse : FileParse → Bool
  | .perr => true
  | .pval v =>
    match v with
    | .vnone => false
    | .vbool _ => false
    | .vint _ => false
    | _ => true

/-! ## Theorems -/

theorem contains_iff_mem {l : List String} {a : String} : l.contains a = true ↔ a ∈ l :=
  List.elem_iff

theorem pySort_perm (l : List String) : List.Perm (pySort l) l :=
  List.perm_insertionSort pyStrLe l

theorem pySort_sorted (l : List String) : List.Sorted pyStrLe (pySort l) :=
  List.sorted_insertionSort pyStrLe l

theorem pySort_eq_of_perm_sorted {l l' : List String} (hp : List.Perm l l')
    (hs : List.Sorted pyStrLe l') : pySort l = l' :=
  List.eq_of_perm_of_sorted ((pySort_perm l).trans hp) (pySort_sorted l) hs

theorem hasSubstr_append_right {p t : List Char} (s : List Char)
    (h : hasSubstr p t = true) : hasSubstr p (s ++ t) = true := by
  induction s with
  | nil => simpa using h
  | cons c cs ih =>
    simp only [List.cons_append, hasSubstr, Bool.or_eq_true]
    exact Or.inr ih

/-- The string built by appending `" cannot be empty"` always contains the
phrase `"cannot be empty"` the PERMISSIVE downgrade tests for. -/
theorem containsSubstr_cannot_be_empty (pre : String) :
    containsSubstr (pre ++ " cannot be empty") "cannot be empty" = true := by
  unfold containsSubstr
  rw [String.data_append]
  exact hasSubstr_append_right pre.data (by decide)

theorem vmcFinish_passed_false (v : ValidatorState) (config : Config) (filename : String)
    (cw : Bool) (ext : List String) (warnings : List Warning) (errors : List String)
    (flag : Bool) (h : errors ≠ []) :
    (vmcFinish v config filename cw ext warnings errors flag).passed = false := by
  unfold vmcFinish
  have hne : ∀ extErrors : List String, (errors ++ extErrors).isEmpty = false := by
    intro extErrors
    cases errors with
    | nil => exact absurd rfl h
    | cons e es => rfl
  simp only [hne, Bool.false_eq_true, if_false]
  split <;> rfl

/-- Outcome of the early missing-required-fields return is never a pass. -/
theorem validateModeConfig_missing_not_passed (v : ValidatorState) (config : Config)
    (filename : String) (cw : Bool) (ext : List String)
    (h : (REQUIRED_FIELDS.filter (fun f => ¬ configHasKey config f)).isEmpty = false) :
    (validateModeConfig v config filename cw ext).passed = false := by
  unfold validateModeConfig
  simp only [h, Bool.false_eq_true, if_false]
  split <;> rfl

/-- Every outcome of the groups step with a non-empty collected error list
fails. -/
theorem vmcGroupsStep_errors_ne (v : ValidatorState) (config : Config) (filename : String)
    (cw : Bool) (ext : List String) (warnings : List Warning) (errors : List String)
    (h : errors ≠ []) :
    (vmcGroupsStep v config filename cw ext warnings errors).passed = false := by
  unfold vmcGroupsStep
  split
  · split
    · split
      · exact vmcFinish_passed_false _ _ _ _ _ _ _ _ h
      · exact vmcFinish_passed_false _ _ _ _ _ _ _ _ (by simp)
    · exact vmcFinish_passed_false _ _ _ _ _ _ _ _ h
  · split
    · exact vmcFinish_passed_false _ _ _ _ _ _ _ _ h
    · rfl
  · exact vmcFinish_passed_false _ _ _ _ _ _ _ _ h

/-- The groups step fails whenever `groups` is present and the empty list,
regardless of strictness, warnings already collected, or extensions. -/
theorem vmcGroupsStep_empty_groups (v : ValidatorState) (config : Config) (filename : String)
    (cw : Bool) (ext : List String) (warnings : List Warning) (errors : List String)
    (h : configGet config "groups" = some (.vlist [])) :
    (vmcGroupsStep v config filename cw ext warnings errors).passed = false := by
  unfold vmcGroupsStep
  split
  · rename_i groups heq
    rw [h] at heq
    injection heq with heq1
    injection heq1 with heq2
    subst heq2
    have hgroups : validateGroups v [] filename =
        .error ("Groups array in " ++ filename ++ " cannot be empty") := rfl
    rw [hgroups]
    have hsub : containsSubstr ("Groups array in " ++ filename ++ " cannot be empty")
        "cannot be empty" = true := by
      have he : "Groups array in " ++ filename ++ " cannot be empty" =
          ("Groups array in " ++ filename) ++ " cannot be empty" := by
        simp [String.append_assoc]
      rw [he]
      exact containsSubstr_cannot_be_empty _
    split
    · rename_i e herr
      injection herr with he2
      subst he2
      rw [if_neg]
      · exact vmcFinish_passed_false _ _ _ _ _ _ _ _ (by simp)
      · intro hcond
        rw [hsub] at hcond
        simp at hcond
    · rename_i a hok
      cases hok
  · rename_i val hno hget
    rw [h] at hget
    injection hget with hv
    cases hno [] hv.symm
  · rename_i hget
    simp [h] at hget

/-- C2: a `groups` field that is present and equal to the empty list makes
`validate_mode_config` fail (raise, or return `valid = False`) at every
strictness level, with or without warning collection, and under any
registered extensions: the empty-groups error is never downgraded. -/
theorem empty_groups_always_fatal (v : ValidatorState) (config : Config)
    (filename : String) (collectWarnings : Bool) (extensions : List String)
    (h : configGet config "groups" = some (.vlist [])) :
    (validateModeConfig v config filename collectWarnings extensions).passed = false := by
  by_cases hm : (REQUIRED_FIELDS.filter (fun f => ¬ configHasKey config f)).isEmpty = true
  case neg =>
    exact validateModeConfig_missing_not_passed v config filename collectWarnings extensions
      (Bool.eq_false_iff.mpr hm)
  case pos =>
    unfold validateModeConfig
    simp only [hm, if_true]
    exact vmcGroupsStep_empty_groups _ _ _ _ _ _ _ h

/-- C2 witness: the fixture `empty-groups` document at PERMISSIVE with
warning collection. -/
theorem empty_groups_always_fatal_witness :
    configGet [("slug", PyVal.vstr "empty-groups"), ("name", PyVal.vstr "Empty Groups Mode"),
        ("roleDefinition", PyVal.vstr "Test role definition"), ("groups", PyVal.vlist [])]
      "groups" = some (.vlist [])
  ∧ (validateModeConfig ⟨.permissive, [], fun _ => true⟩
      [("slug", PyVal.vstr "empty-groups"), ("name", PyVal.vstr "Empty Groups Mode"),
       ("roleDefinition", PyVal.vstr "Test role definition"), ("groups", PyVal.vlist [])]
      "empty-groups.yaml" true []).passed = false :=
  ⟨rfl, empty_groups_always_fatal _ _ _ _ _ rfl⟩

/-- The slug-format step never empties the collected error list. -/
theorem vmcSlugStep_snd_ne (v : ValidatorState) (config : Config) (filename : String)
    (warnings : List Warning) (errors : List String) (h : errors ≠ []) :
    (vmcSlugStep v config filename warnings errors).2 ≠ [] := by
  unfold vmcSlugStep
  split
  · split
    · split
      · exact h
      · simp
    · exact h
  · exact h

/-- A required string field that is present and empty contributes an error
to the string-field scan. -/
theorem stringFieldErrors_ne (config : Config) (filename : String) (f : String)
    (hf : f ∈ (["slug", "name", "roleDefinition"] : List String))
    (hv : configGet config f = some (.vstr "")) :
    stringFieldErrors config filename ≠ [] := by
  intro hnil
  have h2 := (List.filterMap_eq_nil_iff.mp hnil) f hf
  have h3 : errOpt (validateStringField config f filename) =
      some ("Field " ++ sq ++ f ++ sq ++ " in " ++ filename ++ " cannot be empty") := by
    simp [validateStringField, hv, errOpt]
  rw [h2] at h3
  cases h3

/-- C4 (amended): at PERMISSIVE only the slug-format, unknown-field and
group-entry checks are downgraded to warnings; string-field violations are
not.  For every document whose `slug`, `name` or `roleDefinition` is present
but an empty string, validation fails at every strictness level (including
PERMISSIVE) — while the concrete PERMISSIVE slug-format violation does pass
with warnings. -/
theorem permissive_empty_string_fields_fatal :
    (∀ (v : ValidatorState) (config : Config) (filename : String) (cw : Bool)
        (ext : List String) (f : String),
        f ∈ (["slug", "name", "roleDefinition"] : List String) →
        configGet config f = some (.vstr "") →
        (validateModeConfig v config filename cw ext).passed = false)
  ∧ (validateModeConfig ⟨.permissive, [], fun _ => true⟩
        [("slug", PyVal.vstr "Invalid Slug"), ("name", PyVal.vstr "Invalid Slug Mode"),
         ("roleDefinition", PyVal.vstr "Test role definition"),
         ("groups", PyVal.vlist [.vstr "read"])]
        "invalid-slug.yaml" true []).passed = true := by
  constructor
  · intro v config filename cw ext f hf hv
    by_cases hm : (REQUIRED_FIELDS.filter (fun g => ¬ configHasKey config g)).isEmpty = true
    case neg =>
      exact validateModeConfig_missing_not_passed _ _ _ _ _ (Bool.eq_false_iff.mpr hm)
    case pos =>
      unfold validateModeConfig
      simp only [hm, if_true]
      unfold vmcAfterRequired
      apply vmcGroupsStep_errors_ne
      apply vmcSlugStep_snd_ne
      intro hnil
      rcases List.append_eq_nil.mp hnil with ⟨h1, _⟩
      rcases List.append_eq_nil.mp h1 with ⟨_, h4⟩
      exact stringFieldErrors_ne config filename f hf hv h4
  · rfl

/-- C4 counterexample: the concrete document whose `name` is present but the
empty string (everything else valid) is rejected by PERMISSIVE validation
with warning collection (`valid = False`), not accepted with warnings as the
claim states. -/
theorem permissive_empty_name_fails :
    (validateModeConfig ⟨.permissive, [], fun _ => true⟩
      [("slug", PyVal.vstr "test-mode"), ("name", PyVal.vstr ""),
       ("roleDefinition", PyVal.vstr "x"), ("groups", PyVal.vlist [.vstr "read"])]
      "test-mode.yaml" true []).passed = false := rfl

/-- C4 witness: the amended theorem applied at the empty-`name` document
with exception-raising validation. -/
theorem permissive_empty_string_fields_fatal_witness :
    (validateModeConfig ⟨.permissive, [], fun _ => true⟩
      [("slug", PyVal.vstr "test-mode"), ("name", PyVal.vstr ""),
       ("roleDefinition", PyVal.vstr "x"), ("groups", PyVal.vlist [.vstr "read"])]
      "test-mode.yaml" false []).passed = false :=
  permissive_empty_string_fields_fatal.1 _ _ _ _ _ "name" (by decide) rfl

/-- C3: at the failing input — a document missing `roleDefinition` and
`groups`, validated with `collect_warnings = True` — the code returns a
`ValidationResult` with `valid = False` instead of raising; the claim (and
the repository's own test `test_validation_at_permissive_level`) expects a
raise even in collecting mode. -/
theorem missing_required_collect_returns_result :
    validateModeConfig (defaultValidator (fun _ => true))
      [("slug", PyVal.vstr "missing-required"),
       ("name", PyVal.vstr "Missing Required Fields Mode")]
      "missing-required.yaml" true [] =
    .retResult ⟨false,
      [("error", "Missing required fields in missing-required.yaml: roleDefinition, groups")]⟩ :=
  rfl

/-- C5: Strategic ordering of any categorization whose slugs are exactly
{code, architect, debug, ask, orchestrator, code-enhanced, prompt-enhancer,
conport-maintenance, custom-mode, experimental} with empty options yields the
canonical-first-then-alphabetical list. -/
theorem strategic_order_canonical (core enh spec disc : List String)
    (h : List.Perm (core ++ enh ++ spec ++ disc)
      ["code", "architect", "debug", "ask", "orchestrator", "code-enhanced",
       "prompt-enhancer", "conport-maintenance", "custom-mode", "experimental"]) :
    orderModes .strategic
      [("core", core), ("enhanced", enh), ("specialized", spec), ("discovered", disc)] {} =
    ["code", "architect", "debug", "ask", "orchestrator", "code-enhanced",
     "prompt-enhancer", "conport-maintenance", "custom-mode", "experimental"] := by
  set T10 : List String :=
    ["code", "architect", "debug", "ask", "orchestrator", "code-enhanced",
     "prompt-enhancer", "conport-maintenance", "custom-mode", "experimental"] with hT10
  set cm : Categorized :=
    [("core", core), ("enhanced", enh), ("specialized", spec), ("discovered", disc)] with hcm
  have hall : List.Perm (allModesOf cm) T10 := by
    simpa [hcm, allModesOf, List.append_assoc] using h
  have hmem : ∀ x, (allModesOf cm).contains x = T10.contains x := by
    intro x
    cases hc : T10.contains x with
    | true => exact contains_iff_mem.mpr (hall.mem_iff.mpr (contains_iff_mem.mp hc))
    | false =>
      apply Bool.eq_false_iff.mpr
      intro hc2
      have hx := hall.mem_iff.mp (contains_iff_mem.mp hc2)
      rw [contains_iff_mem.mpr hx] at hc
      cases hc
  have hordered : STRATEGIC_ORDER.filter (fun m => (allModesOf cm).contains m) =
      ["code", "architect", "debug", "ask", "orchestrator", "code-enhanced",
       "prompt-enhancer", "conport-maintenance"] := by
    rw [List.filter_congr (fun a _ => hmem a)]
    rw [hT10]
    decide
  have hraw : rawStrategicOrder cm =
      ["code", "architect", "debug", "ask", "orchestrator", "code-enhanced",
       "prompt-enhancer", "conport-maintenance"]
      ++ pySort ((allModesOf cm).filter (fun m =>
          !((["code", "architect", "debug", "ask", "orchestrator", "code-enhanced",
             "prompt-enhancer", "conport-maintenance"] : List String).contains m))) := by
    simp only [rawStrategicOrder]
    rw [hordered]
  have hsort : pySort ((allModesOf cm).filter (fun m =>
      !((["code", "architect", "debug", "ask", "orchestrator", "code-enhanced",
         "prompt-enhancer", "conport-maintenance"] : List String).contains m))) =
      ["custom-mode", "experimental"] := by
    apply pySort_eq_of_perm_sorted
    · have hfq := hall.filter (fun m =>
        !((["code", "architect", "debug", "ask", "orchestrator", "code-enhanced",
           "prompt-enhancer", "conport-maintenance"] : List String).contains m))
      rw [hT10] at hfq
      simpa using hfq
    · decide
  show applyFilters (rawStrategicOrder cm) {} = T10
  rw [show applyFilters (rawStrategicOrder cm) {} = rawStrategicOrder cm from rfl]
  rw [hraw, hsort]
  rw [hT10]
  rfl


/-- C5 witness: the discovery-shaped categorization of those ten slugs. -/
theorem strategic_order_canonical_witness :
    orderModes .strategic
      [("core", ["code", "architect", "debug", "ask", "orchestrator"]),
       ("enhanced", ["code-enhanced"]),
       ("specialized", ["prompt-enhancer", "conport-maintenance"]),
       ("discovered", ["custom-mode", "experimental"])] {} =
    ["code", "architect", "debug", "ask", "orchestrator", "code-enhanced",
     "prompt-enhancer", "conport-maintenance", "custom-mode", "experimental"] :=
  strategic_order_canonical _ _ _ _ (List.Perm.refl _)

/-- Filtering by non-membership in the empty exclusion list keeps a list
unchanged. -/
theorem filter_not_mem_nil (l : List String) :
    l.filter (fun x => !((([] : List String)).contains x)) = l := by
  induction l with
  | nil => rfl
  | cons a as ih => simp [List.filter_cons, ih]

/-- `_apply_filters` computes exactly the spec's two-stage pipeline:
exclusion filter first, then the priority hoist. -/
theorem applyFilters_eq_spec (l : List String) (opts : OrderingOptions) :
    applyFilters l opts =
      (opts.priorityFirst.filter
        (fun m => (l.filter (fun x => !(opts.exclude.contains x))).contains m))
      ++ ((l.filter (fun x => !(opts.exclude.contains x))).filter
           (fun m => !((opts.priorityFirst.filter
             (fun m2 => (l.filter (fun x => !(opts.exclude.contains x))).contains m2)).contains m))) := by
  simp only [applyFilters]
  by_cases hex : opts.exclude.isEmpty
  · have hexnil : opts.exclude = [] := List.isEmpty_iff.mp hex
    by_cases hpf : opts.priorityFirst.isEmpty
    · have hpfnil : opts.priorityFirst = [] := List.isEmpty_iff.mp hpf
      simp only [hex, hpf, if_true, hexnil, hpfnil, List.filter_nil, filter_not_mem_nil,
        List.nil_append]
      simp
    · simp only [hex, hpf, if_true, Bool.false_eq_true, if_false, hexnil, filter_not_mem_nil]
      simp
  · by_cases hpf : opts.priorityFirst.isEmpty
    · have hpfnil : opts.priorityFirst = [] := List.isEmpty_iff.mp hpf
      simp only [hex, hpf, Bool.false_eq_true, if_false, if_true, hpfnil, List.filter_nil,
        filter_not_mem_nil, List.nil_append]
      simp
    · simp only [hex, hpf, Bool.false_eq_true, if_false]


/-- C6: for every strategy, categorization and options record, every slug in
`exclude` is absent from `order_modes`' result, and the result is the
excluded-then-priority-hoisted rearrangement of the strategy's raw order. -/
theorem ordering_filters_exclude_and_priority (k : StrategyKind) (cm : Categorized)
    (opts : OrderingOptions) :
    (∀ s ∈ opts.exclude, s ∉ orderModes k cm opts)
  ∧ orderModes k cm opts = specFilteredOrder k cm opts := by
  have heq : orderModes k cm opts = specFilteredOrder k cm opts := by
    show applyFilters (rawOrder k cm opts) opts = specFilteredOrder k cm opts
    rw [applyFilters_eq_spec]
    rfl
  refine ⟨?_, heq⟩
  intro s hs hmem
  rw [heq] at hmem
  simp only [specFilteredOrder] at hmem
  rcases List.mem_append.mp hmem with hmem1 | hmem1
  · have h1 := List.of_mem_filter hmem1
    have h2 : s ∈ (rawOrder k cm opts).filter (fun x => !(opts.exclude.contains x)) :=
      contains_iff_mem.mp h1
    have h3 := List.of_mem_filter h2
    rw [contains_iff_mem.mpr hs] at h3
    simp at h3
  · have h2 := List.mem_of_mem_filter hmem1
    have h3 := List.of_mem_filter h2
    rw [contains_iff_mem.mpr hs] at h3
    simp at h3

/-- C6 witness: `exclude = [orchestrator]`, `priority_first = [debug]` on a
concrete strategic ordering. -/
theorem ordering_filters_witness :
    ("orchestrator" ∉ orderModes .strategic
      [("core", ["code", "debug", "orchestrator"]), ("enhanced", []), ("specialized", []),
       ("discovered", [])]
      { exclude := ["orchestrator"], priorityFirst := ["debug"] })
  ∧ orderModes .strategic
      [("core", ["code", "debug", "orchestrator"]), ("enhanced", []), ("specialized", []),
       ("discovered", [])]
      { exclude := ["orchestrator"], priorityFirst := ["debug"] } =
    specFilteredOrder .strategic
      [("core", ["code", "debug", "orchestrator"]), ("enhanced", []), ("specialized", []),
       ("discovered", [])]
      { exclude := ["orchestrator"], priorityFirst := ["debug"] } :=
  ⟨(ordering_filters_exclude_and_priority _ _ _).1 "orchestrator" (by decide),
   (ordering_filters_exclude_and_priority _ _ _).2⟩

/-- Every member of a list is bounded by its `max`-fold. -/
theorem le_foldr_max (l : List Nat) (n : Nat) (h : n ∈ l) : n ≤ l.foldr max 0 := by
  induction l with
  | nil => cases h
  | cons a as ih =>
    rcases List.mem_cons.mp h with rfl | h2
    · exact Nat.le_max_left _ _
    · exact Nat.le_trans (ih h2) (Nat.le_max_right _ _)

/-- C7: the next backup number is one plus the maximum numeric suffix among
existing backups (one when none exist); every existing number is strictly
below it, so gaps are never reused — with backups numbered 1 and 3 the next
number is 4. -/
theorem next_backup_number_max_plus_one :
    (∀ dir : List (String × Content), ∀ n ∈ backupNumbers dir, n < getNextBackupNumber dir)
  ∧ (∀ dir : List (String × Content),
      getNextBackupNumber dir = (backupNumbers dir).foldr max 0 + 1)
  ∧ getNextBackupNumber [(".roomodes_1", []), (".roomodes_3", [])] = 4 := by
  refine ⟨?_, fun _ => rfl, by decide⟩
  intro dir n hn
  have h := le_foldr_max _ _ hn
  unfold getNextBackupNumber
  omega

/-- C7 witness: the number 3 present in the directory is below the next
assigned number. -/
theorem next_backup_number_witness :
    3 ∈ backupNumbers [(".roomodes_1", ([] : Content)), (".roomodes_3", [])]
  ∧ 3 < getNextBackupNumber [(".roomodes_1", ([] : Content)), (".roomodes_3", [])] :=
  ⟨by decide, next_backup_number_max_plus_one.1 _ 3 (by decide)⟩

/-- Code-point value of a decimal digit character. -/
theorem digitCh_toNat (d : Nat) (h : d < 10) : (digitCh d).toNat = 48 + d := by
  interval_cases d <;> decide

/-- Appending one digit multiplies the accumulated value by ten. -/
theorem digitsToNat_append_digit (l : List Char) (c : Char) :
    digitsToNat (l ++ [c]) = digitsToNat l * 10 + (c.toNat - 48) := by
  simp [digitsToNat, List.foldl_append]

/-- With enough fuel, the digit rendering round-trips, is never empty, and
produces only digit characters. -/
theorem natDigitsAux_spec (fuel : Nat) : ∀ n : Nat, n < fuel →
    digitsToNat (natDigitsAux fuel n) = n ∧ natDigitsAux fuel n ≠ [] ∧
    ∀ c ∈ natDigitsAux fuel n, 48 ≤ c.toNat ∧ c.toNat ≤ 57 := by
  induction fuel with
  | zero => intro n h; omega
  | succ fuel ih =>
    intro n h
    by_cases h10 : n < 10
    · refine ⟨?_, by simp [natDigitsAux, h10], ?_⟩
      · simp [natDigitsAux, h10, digitsToNat, digitCh_toNat n h10]
      · intro c hc
        simp [natDigitsAux, h10] at hc
        subst hc
        rw [digitCh_toNat n h10]
        omega
    · have hpos : 0 < n := by omega
      have hdivlt : n / 10 < n := Nat.div_lt_self hpos (by omega)
      have hdiv : n / 10 < fuel := by omega
      obtain ⟨ih1, ih2, ih3⟩ := ih (n / 10) hdiv
      have hmod : n % 10 < 10 := Nat.mod_lt _ (by omega)
      refine ⟨?_, by simp [natDigitsAux, h10], ?_⟩
      · rw [show natDigitsAux (fuel + 1) n =
            natDigitsAux fuel (n / 10) ++ [digitCh (n % 10)] from by simp [natDigitsAux, h10]]
        rw [digitsToNat_append_digit, ih1, digitCh_toNat _ hmod]
        omega
      · intro c hc
        rw [show natDigitsAux (fuel + 1) n =
            natDigitsAux fuel (n / 10) ++ [digitCh (n % 10)] from by simp [natDigitsAux, h10]] at hc
        rcases List.mem_append.mp hc with hc | hc
        · exact ih3 c hc
        · simp at hc
          subst hc
          rw [digitCh_toNat _ hmod]
          omega

/-- `str(n)` renders decimal digits that parse back to `n`. -/
theorem natDigits_spec (n : Nat) :
    digitsToNat (natDigits n) = n ∧ natDigits n ≠ [] ∧
    ∀ c ∈ natDigits n, 48 ≤ c.toNat ∧ c.toNat ≤ 57 :=
  natDigitsAux_spec (n + 1) n (Nat.lt_succ_self n)

/-- A list is a Boolean prefix of itself extended on the right. -/
theorem isPrefixOf_append_self (l r : List Char) : l.isPrefixOf (l ++ r) = true := by
  induction l with
  | nil => simp [List.isPrefixOf]
  | cons a as ih => simp [List.isPrefixOf, ih]

/-- The digit-prefix scan consumes an all-digit list entirely. -/
theorem leadingDigits_all_digits (ds : List Char)
    (h : ∀ c ∈ ds, 48 ≤ c.toNat ∧ c.toNat ≤ 57) : leadingDigits ds = (ds, []) := by
  induction ds with
  | nil => rfl
  | cons c cs ih =>
    have hc := h c (List.mem_cons_self c cs)
    have hrest : leadingDigits cs = (cs, []) := ih (fun x hx => h x (List.mem_cons_of_mem _ hx))
    simp [leadingDigits, hc, hrest]

/-- The filename the backup writes parses back to exactly its number. -/
theorem roomodesBackupNum_createBackupFilename (n : Nat) :
    roomodesBackupNum (createBackupFilename n) = some n := by
  obtain ⟨h1, h2, h3⟩ := natDigits_spec n
  have hdata : (createBackupFilename n).data = ".roomodes_".data ++ natDigits n := by
    simp [createBackupFilename, String.data_append, natStr]
  simp only [roomodesBackupNum, hdata]
  rw [isPrefixOf_append_self]
  simp only [if_true]
  rw [List.drop_left]
  rw [leadingDigits_all_digits _ h3]
  simp [List.isEmpty_iff, h2, h1]


/-- Numbers already present in the backup directory are below the next
assigned number (numbers are never reused). -/
theorem backupNumbers_lt_next (dir : List (String × Content)) :
    ∀ m ∈ backupNumbers dir, m < getNextBackupNumber dir := by
  intro m hm
  have := le_foldr_max _ _ hm
  unfold getNextBackupNumber
  omega

/-- The next backup filename does not collide with any existing file. -/
theorem fresh_backup_name (dir : List (String × Content)) :
    ∀ e ∈ dir, e.1 ≠ createBackupFilename (getNextBackupNumber dir) := by
  intro e he heq
  have hnum : roomodesBackupNum e.1 = some (getNextBackupNumber dir) := by
    rw [heq]; exact roomodesBackupNum_createBackupFilename _
  have hmem : getNextBackupNumber dir ∈ backupNumbers dir :=
    List.mem_filterMap.mpr ⟨e, he, hnum⟩
  exact absurd (backupNumbers_lt_next dir _ hmem) (Nat.lt_irrefl _)

/-- Writing the fresh backup file appends it to the directory. -/
theorem dirWrite_fresh (dir : List (String × Content)) (c : Content) :
    dirWrite dir (createBackupFilename (getNextBackupNumber dir)) c =
      dir ++ [(createBackupFilename (getNextBackupNumber dir), c)] := by
  unfold dirWrite
  rw [if_neg]
  intro hany
  rcases List.any_eq_true.mp hany with ⟨e, he, heq⟩
  exact fresh_backup_name dir e he (by simpa using heq)

/-- Lookup of a freshly appended key. -/
theorem assocGet_append_fresh (dir : List (String × Content)) (k : String) (v : Content)
    (h : ∀ e ∈ dir, e.1 ≠ k) : assocGet (dir ++ [(k, v)]) k = some v := by
  induction dir with
  | nil => simp [assocGet]
  | cons e rest ih =>
    obtain ⟨k1, v1⟩ := e
    have h1 : k1 ≠ k := h (k1, v1) (List.mem_cons_self _ _)
    simp only [List.cons_append, assocGet, if_neg h1]
    exact ih (fun x hx => h x (List.mem_cons_of_mem _ hx))

/-- A `max`-fold over values all bounded by the seed returns the seed. -/
theorem foldr_max_le {l : List Nat} {k : Nat} (h : ∀ x ∈ l, x ≤ k) : l.foldr max k = k := by
  induction l with
  | nil => rfl
  | cons a as ih =>
    simp only [List.foldr_cons]
    rw [ih (fun x hx => h x (List.mem_cons_of_mem _ hx))]
    exact Nat.max_eq_right (h a (List.mem_cons_self _ _))

/-- Right after a backup, the latest backup number is the one just
assigned. -/
theorem getLatest_after_backup (dir : List (String × Content)) (c : Content) :
    getLatestBackupNumber (dir ++ [(createBackupFilename (getNextBackupNumber dir), c)]) =
      some (getNextBackupNumber dir) := by
  have hnum : backupNumbers (dir ++ [(createBackupFilename (getNextBackupNumber dir), c)]) =
      backupNumbers dir ++ [getNextBackupNumber dir] := by
    simp [backupNumbers, List.filterMap_append, roomodesBackupNum_createBackupFilename]
  unfold getLatestBackupNumber
  rw [hnum]
  have hne : (backupNumbers dir ++ [getNextBackupNumber dir]).isEmpty = false := by simp
  simp only [hne, Bool.false_eq_true, if_false]
  refine congrArg some ?_
  rw [List.foldr_append]
  simp only [List.foldr_cons, List.foldr_nil]
  rw [Nat.max_zero]
  exact foldr_max_le (fun x hx => by
    have := backupNumbers_lt_next dir x hx
    omega)

/-- Lookup after deleting a key finds nothing. -/
theorem assocGet_erase_self (dir : List (String × Content)) (k : String) :
    assocGet (dirErase dir k) k = none := by
  induction dir with
  | nil => rfl
  | cons e rest ih =>
    obtain ⟨k1, v1⟩ := e
    unfold dirErase at ih ⊢
    by_cases hk : k1 = k
    · subst hk
      rw [List.filter_cons, if_neg (by simp)]
      exact ih
    · rw [List.filter_cons, if_pos (by simp [hk])]
      simp only [assocGet, if_neg hk]
      exact ih


/-- C1: backing up an existing `.roomodes` target and then restoring with no
explicit path reads the just-written (latest) backup, copies its bytes over
the live target byte-identically regardless of how the target was mutated in
between, and deletes that backup file. -/
theorem backup_restore_roundtrip (w : BackupWorld) (c : Content)
    (hsrc : w.roomodes = some c) (w1 : BackupWorld) (fname : String)
    (hb : backupLocalRoomodes w = .ok (w1, fname)) (t : Option Content) :
    dirRead w1.localBackups fname = some c
  ∧ restoreLocalRoomodes { w1 with roomodes := t } none =
      .ok { roomodes := some c, localBackups := dirErase w1.localBackups fname }
  ∧ dirRead (dirErase w1.localBackups fname) fname = none := by
  simp only [backupLocalRoomodes, hsrc] at hb
  injection hb with hb1
  obtain ⟨hw1, hf⟩ := Prod.mk.injEq .. |>.mp hb1
  subst hw1
  subst hf
  have hwr := dirWrite_fresh w.localBackups c
  have hfresh := fresh_backup_name w.localBackups
  refine ⟨?_, ?_, ?_⟩
  · show assocGet (dirWrite w.localBackups _ c) _ = some c
    rw [hwr]
    exact assocGet_append_fresh _ _ _ hfresh
  · simp only [restoreLocalRoomodes, hwr, getLatest_after_backup]
    rw [show dirRead
        (w.localBackups ++ [(createBackupFilename (getNextBackupNumber w.localBackups), c)])
        (createBackupFilename (getNextBackupNumber w.localBackups)) = some c from
      assocGet_append_fresh _ _ _ hfresh]
  · show assocGet (dirErase (dirWrite w.localBackups _ c) _) _ = none
    exact assocGet_erase_self _ _


/-- C1 witness: concrete world with one prior backup. -/
theorem backup_restore_roundtrip_witness :
    dirRead ([(".roomodes_1", [9]), (".roomodes_2", [1, 2, 3])] : List (String × Content))
      ".roomodes_2" = some [1, 2, 3]
  ∧ restoreLocalRoomodes ⟨some [7], [(".roomodes_1", [9]), (".roomodes_2", [1, 2, 3])]⟩ none =
      .ok ⟨some [1, 2, 3],
        dirErase [(".roomodes_1", [9]), (".roomodes_2", [1, 2, 3])] ".roomodes_2"⟩
  ∧ dirRead
      (dirErase ([(".roomodes_1", [9]), (".roomodes_2", [1, 2, 3])] : List (String × Content))
        ".roomodes_2") ".roomodes_2" = none :=
  backup_restore_roundtrip ⟨some [1, 2, 3], [(".roomodes_1", [9])]⟩ [1, 2, 3] rfl
    ⟨some [1, 2, 3], [(".roomodes_1", [9]), (".roomodes_2", [1, 2, 3])]⟩ ".roomodes_2" rfl
    (some [7])

/-- The local-directory step only touches `localDirExists`. -/
theorem prepLocalDir_fields (st : SyncState) (d : Bool) :
    (prepLocalDir st d).modesDirExists = st.modesDirExists
  ∧ (prepLocalDir st d).modeFiles = st.modeFiles
  ∧ (prepLocalDir st d).targetContent = st.targetContent
  ∧ (prepLocalDir st d).globalSet = st.globalSet
  ∧ (prepLocalDir st d).localSet = st.localSet := by
  unfold prepLocalDir
  split <;> exact ⟨rfl, rfl, rfl, rfl, rfl⟩

/-- The backup step only touches `backupContent`. -/
theorem prepBackup_fields (st : SyncState) (d : Bool) :
    (prepBackup st d).modesDirExists = st.modesDirExists
  ∧ (prepBackup st d).modeFiles = st.modeFiles
  ∧ (prepBackup st d).targetContent = st.targetContent
  ∧ (prepBackup st d).globalSet = st.globalSet
  ∧ (prepBackup st d).localSet = st.localSet := by
  unfold prepBackup
  split
  · split
    · split <;> exact ⟨rfl, rfl, rfl, rfl, rfl⟩
    · exact ⟨rfl, rfl, rfl, rfl, rfl⟩
  · exact ⟨rfl, rfl, rfl, rfl, rfl⟩

/-- Dry runs skip local-directory creation. -/
theorem prepLocalDir_dry (st : SyncState) : prepLocalDir st true = st := by
  unfold prepLocalDir
  rw [if_neg (by simp)]

/-- Dry runs skip the backup copy. -/
theorem prepBackup_dry (st : SyncState) : prepBackup st true = st := by
  unfold prepBackup
  rw [if_neg (by simp)]

/-- C8: a dry-run sync leaves the whole world untouched (no target write, no
backup, no directory creation), and returns `True` whenever the modes
directory exists, a target is set, and the resolution pipeline yields at
least one valid mode. -/
theorem dry_run_no_mutation (rv : String → Bool) (st : SyncState) (sname : String)
    (opts : OrderingOptions) :
    (syncModes rv st sname opts true).1 = st
  ∧ (st.modesDirExists = true → (st.globalSet = true ∨ st.localSet = true) →
      ∀ modes, createGlobalConfig rv st.modesDirExists st.modeFiles sname opts = .ok modes →
        modes ≠ [] → (syncModes rv st sname opts true).2 = .returned true) := by
  have hnorm : syncModes rv st sname opts true =
      (if ¬ st.modesDirExists then (st, .raised "Modes directory not found")
       else if ¬ st.globalSet ∧ ¬ st.localSet then
         (st, .raised "No config path set (neither global nor local)")
       else
         match createGlobalConfig rv st.modesDirExists st.modeFiles sname opts with
         | .error e => (st, .raised ("Sync failed: " ++ e))
         | .ok modes =>
           if modes.isEmpty then (st, .returned false) else (st, .returned true)) := by
    simp [syncModes, prepLocalDir_dry, prepBackup_dry]
  constructor
  · rw [hnorm]
    split
    · rfl
    · split
      · rfl
      · split
        · rfl
        · split <;> rfl
  · intro h1 h2 modes hok hne
    rw [hnorm]
    rw [if_neg (by simp [h1]), if_neg (by rcases h2 with h2 | h2 <;> simp [h2]), hok]
    have hie : modes.isEmpty = false := by
      cases modes with
      | nil => exact absurd rfl hne
      | cons a as => rfl
    simp [hie]

/-- C9: when the mode-resolution pipeline completes with an empty list, a
sync run with the modes directory present and a target selected returns
`False` and leaves the target file's content untouched (wet or dry). -/
theorem empty_resolution_returns_false (rv : String → Bool) (st : SyncState) (sname : String)
    (opts : OrderingOptions) (dryRun : Bool)
    (h1 : st.modesDirExists = true) (h2 : st.globalSet = true ∨ st.localSet = true)
    (h3 : createGlobalConfig rv st.modesDirExists st.modeFiles sname opts = .ok []) :
    (syncModes rv st sname opts dryRun).2 = .returned false
  ∧ ((syncModes rv st sname opts dryRun).1).targetContent = st.targetContent := by
  simp only [syncModes]
  rw [if_neg (by simp [h1]), if_neg (by rcases h2 with h | h <;> simp [h])]
  rw [show (prepBackup (prepLocalDir st dryRun) dryRun).modesDirExists = st.modesDirExists from
    by rw [(prepBackup_fields _ _).1, (prepLocalDir_fields _ _).1]]
  rw [show (prepBackup (prepLocalDir st dryRun) dryRun).modeFiles = st.modeFiles from
    by rw [(prepBackup_fields _ _).2.1, (prepLocalDir_fields _ _).2.1]]
  rw [h3]
  refine ⟨rfl, ?_⟩
  show (prepBackup (prepLocalDir st dryRun) dryRun).targetContent = st.targetContent
  rw [(prepBackup_fields _ _).2.2.1, (prepLocalDir_fields _ _).2.2.1]


/-- Python `in` raises no `TypeError` on strings, lists and dicts. -/
theorem pyIn_no_typeerror (k : String) (v : PyVal) (h : scalarFreeParse (.pval v) = true) :
    ∃ b, pyIn k v = .ok b := by
  cases v with
  | vnone => simp [scalarFreeParse] at h
  | vbool b => simp [scalarFreeParse] at h
  | vint n => simp [scalarFreeParse] at h
  | vstr s => exact ⟨_, rfl⟩
  | vlist l => exact ⟨_, rfl⟩
  | vdict d => exact ⟨_, rfl⟩

/-- The required-keys scan raises no `TypeError` on such values. -/
theorem allKeysIn_no_typeerror (fields : List String) (v : PyVal)
    (h : scalarFreeParse (.pval v) = true) : ∃ b, allKeysIn fields v = .ok b := by
  induction fields with
  | nil => exact ⟨true, rfl⟩
  | cons f rest ih =>
    obtain ⟨b, hb⟩ := pyIn_no_typeerror f v h
    cases b with
    | false => exact ⟨false, by simp [allKeysIn, hb]⟩
    | true =>
      obtain ⟨b2, hb2⟩ := ih
      exact ⟨b2, by simp [allKeysIn, hb, hb2]⟩

/-- The discovery pre-filter raises no `TypeError` on scalar-free files. -/
theorem isValidModeFile_no_typeerror (p : FileParse) (h : scalarFreeParse p = true) :
    ∃ b, isValidModeFile p = .ok b := by
  cases p with
  | perr => exact ⟨false, rfl⟩
  | pval v => exact allKeysIn_no_typeerror _ v h

/-- The discovery scan completes on scalar-free directories. -/
theorem discoverLoop_ok (files : ModeFiles) (h : ∀ e ∈ files, scalarFreeParse e.2 = true) :
    ∀ acc, ∃ acc2, discoverLoop files acc = .ok acc2 := by
  induction files with
  | nil => exact fun acc => ⟨acc, rfl⟩
  | cons e rest ih =>
    intro acc
    obtain ⟨k, p⟩ := e
    obtain ⟨b, hb⟩ := isValidModeFile_no_typeerror p (h (k, p) (List.mem_cons_self _ _))
    have hrest : ∀ x ∈ rest, scalarFreeParse x.2 = true :=
      fun x hx => h x (List.mem_cons_of_mem _ hx)
    cases b with
    | false =>
      obtain ⟨acc2, h2⟩ := ih hrest acc
      exact ⟨acc2, by simp [discoverLoop, hb, h2]⟩
    | true =>
      obtain ⟨acc2, h2⟩ := ih hrest (catAppend acc (categorizeMode k) k)
      exact ⟨acc2, by simp [discoverLoop, hb, h2]⟩

/-- C10 counterexample: a modes directory containing one file that parses to
a YAML scalar (here an empty file, `safe_load` = `None`) makes
`discover_all_modes` raise `TypeError` instead of returning the four-key
mapping — `'slug' in None` is not caught by `_is_valid_mode_file`. -/
theorem discovery_scalar_file_raises :
    discoverAllModes true [("empty", .pval .vnone)] = .error () := rfl

/-- C10 (amended): whenever every file in the modes directory either fails
to parse or parses to a string, list or dict (no `None`/`bool`/`int`
scalars), `discover_all_modes` returns a mapping with exactly the four keys
`core, enhanced, specialized, discovered` in that order, each slug list
sorted ascending; a missing directory yields the four keys with empty
lists rather than an error. -/
theorem discovery_four_sorted_categories (dirExists : Bool) (files : ModeFiles)
    (hfiles : ∀ e ∈ files, scalarFreeParse e.2 = true) :
    ∃ cat, discoverAllModes dirExists files = .ok cat
      ∧ cat.map Prod.fst = ["core", "enhanced", "specialized", "discovered"]
      ∧ (∀ e ∈ cat, List.Sorted pyStrLe e.2)
      ∧ (dirExists = false →
          cat = [("core", []), ("enhanced", []), ("specialized", []), ("discovered", [])]) := by
  cases dirExists with
  | false =>
    refine ⟨[("core", []), ("enhanced", []), ("specialized", []), ("discovered", [])],
      rfl, rfl, ?_, fun _ => rfl⟩
    intro e he
    simp at he
    rcases he with he | he | he | he <;> rw [he] <;> exact List.sorted_nil
  | true =>
    obtain ⟨acc2, h2⟩ := discoverLoop_ok files hfiles {}
    refine ⟨[("core", pySort acc2.core), ("enhanced", pySort acc2.enhanced),
      ("specialized", pySort acc2.specialized), ("discovered", pySort acc2.discovered)],
      by simp [discoverAllModes, h2], rfl, ?_, by intro hf; cases hf⟩
    intro e he
    simp at he
    rcases he with he | he | he | he <;> rw [he] <;> exact pySort_sorted _


/-- C8 witness: dry run over a directory with one valid mode. -/
theorem dry_run_no_mutation_witness :
    (syncModes (fun _ => true)
      ⟨true, [("code", .pval (.vdict [("slug", .vstr "code"), ("name", .vstr "N"),
        ("roleDefinition", .vstr "R"), ("groups", .vlist [.vstr "read"])]))],
       true, false, some "old", none, false⟩ "strategic" {} true).1 =
      ⟨true, [("code", .pval (.vdict [("slug", .vstr "code"), ("name", .vstr "N"),
        ("roleDefinition", .vstr "R"), ("groups", .vlist [.vstr "read"])]))],
       true, false, some "old", none, false⟩
  ∧ (syncModes (fun _ => true)
      ⟨true, [("code", .pval (.vdict [("slug", .vstr "code"), ("name", .vstr "N"),
        ("roleDefinition", .vstr "R"), ("groups", .vlist [.vstr "read"])]))],
       true, false, some "old", none, false⟩ "strategic" {} true).2 = .returned true := by
  have h := dry_run_no_mutation (fun _ => true)
    ⟨true, [("code", .pval (.vdict [("slug", .vstr "code"), ("name", .vstr "N"),
      ("roleDefinition", .vstr "R"), ("groups", .vlist [.vstr "read"])]))],
     true, false, some "old", none, false⟩ "strategic" {}
  exact ⟨h.1, h.2 rfl (Or.inl rfl)
    [[("slug", .vstr "code"), ("name", .vstr "N"), ("roleDefinition", .vstr "R"),
      ("groups", .vlist [.vstr "read"]), ("source", .vstr "global")]]
    rfl (List.cons_ne_nil _ _)⟩

/-- C9 witness: wet run over an empty modes directory. -/
theorem empty_resolution_returns_false_witness :
    (syncModes (fun _ => true) ⟨true, [], true, false, some "old", none, false⟩
      "strategic" {} false).2 = .returned false
  ∧ ((syncModes (fun _ => true) ⟨true, [], true, false, some "old", none, false⟩
      "strategic" {} false).1).targetContent = some "old" :=
  empty_resolution_returns_false (fun _ => true)
    ⟨true, [], true, false, some "old", none, false⟩ "strategic" {} false rfl (Or.inl rfl) rfl

/-- C10 witness: a valid mode file plus an unparseable one. -/
theorem discovery_four_sorted_categories_witness :
    ∃ cat, discoverAllModes true
        [("code", .pval (.vdict [("slug", .vstr "code"), ("name", .vstr "N"),
          ("roleDefinition", .vstr "R"), ("groups", .vlist [.vstr "read"])])),
         ("broken", .perr)] = .ok cat
      ∧ cat.map Prod.fst = ["core", "enhanced", "specialized", "discovered"]
      ∧ (∀ e ∈ cat, List.Sorted pyStrLe e.2)
      ∧ (true = false →
          cat = [("core", []), ("enhanced", []), ("specialized", []), ("discovered", [])]) :=
  discovery_four_sorted_categories true
    [("code", .pval (.vdict [("slug", .vstr "code"), ("name", .vstr "N"),
      ("roleDefinition", .vstr "R"), ("groups", .vlist [.vstr "read"])])),
     ("broken", .perr)] (by decide)

end RooModes